import Mathlib

/-!
Verification of the jackcompiler repository (a single-pass Jack-to-VM
compiler written in Go).  The definitions below are a shallow embedding of
the Go sources: `tokenizer.go` (comment-stripping reader), the symbol table,
`vm_writer.go`, and `recursive_decent_parser.go` (the recursive-descent
parser and code generator).  Machine integers (`MachineWord`, Go `int16`)
are modelled as `Int` with an explicit reduction into the two's-complement
16-bit range at the points where Go performs an `int16` conversion or an
`int16` increment.  Go `panic` is modelled by the `Res.fatal` constructor,
Go `error` returns by `Res.err`; mutation of the compiler receiver is
modelled by explicit state passing of `CompState`.  The recursive-descent
functions are mutually recursive through a fuel bound (`fns`), so that all
definitions compute inside the kernel.
-/

namespace JackC

/-- 16-bit machine word of the target VM; Go type `MachineWord int16`,
modelled as `Int` together with `wrap16` at conversion points. -/
abbrev MachineWord := Int

/-- Reduction of an integer into the signed 16-bit range; models Go's
`int16` conversion / wrap-around of `MachineWord` arithmetic. -/
def wrap16 (n : Int) : Int := (n + 32768) % 65536 - 32768

theorem wrap16_eq_of_le (n : Int) (h0 : 0 ≤ n) (h1 : n ≤ 32767) : wrap16 n = n := by
  unfold wrap16
  omega

/-- Token kinds, from the `TokenType` constants in the source. -/
inductive TokenType where
  | InvalidToken
  | Keyword
  | SymbolTok
  | IntegerConstant
  | StringConstant
  | Identifier
deriving DecidableEq

/-- A token: kind plus literal source text (`terminal`). -/
structure Token where
  tokenType : TokenType
  terminal : String
deriving DecidableEq

/-- Go `IsTokenType`. -/
def IsTokenType (t : Token) (tt : TokenType) : Bool := t.tokenType == tt

/-- Go `IsTerminal` (variadic terminals modelled as a list). -/
def IsTerminal (t : Token) (terminals : List String) : Bool :=
  terminals.any (fun s => t.terminal == s)

/-- Decimal value of a non-empty digit string, `none` on any non-digit. -/
def decDigits? (cs : List Char) (acc : Nat) : Option Nat :=
  match cs with
  | [] => some acc
  | c :: rest =>
    if 48 ≤ c.toNat && c.toNat ≤ 57 then decDigits? rest (acc * 10 + (c.toNat - 48))
    else none

/-- Go `Token.asInt`: parse the terminal as a decimal number (the tokenizer
only produces runs of 1-5 digits here), substituting 0 when it is no digit
string or exceeds 32767 (negative literals cannot occur, `-` is an
operator). -/
def Token.asInt (t : Token) : MachineWord :=
  match t.terminal.data with
  | [] => 0
  | cs =>
    match decDigits? cs 0 with
    | some n => if n ≤ 32767 then (n : Int) else 0
    | none => 0

/-- Symbol kinds, from the `SymbolType` constants. -/
inductive SymbolType where
  | StaticSymbol
  | FieldSymbol
  | ArgumentSymbol
  | VarSymbol
  | InvalidSymbol
deriving DecidableEq

/-- A symbol-table entry: kind, declared Jack type, and per-kind index. -/
structure Symbol where
  symbolType : SymbolType
  variableType : String
  index : MachineWord
deriving DecidableEq

/-- The two symbol-table scopes. -/
inductive Scope where
  | FunctionScope
  | ClassScope
deriving DecidableEq

/-- One scope of the symbol table.  Go uses `map[string]Symbol`; we model it
as an insertion-ordered association list with unique keys (insertion
replaces an existing key in place, otherwise appends). -/
abbrev Table := List (String × Symbol)

/-- Map lookup. -/
def tableLookup (t : Table) (name : String) : Option Symbol :=
  (t.find? (fun p => p.1 == name)).map (fun p => p.2)

/-- Map assignment `(*table)[name] = symbol`. -/
def tableInsert (t : Table) (name : String) (sym : Symbol) : Table :=
  if t.any (fun p => p.1 == name) then
    t.map (fun p => if p.1 == name then (name, sym) else p)
  else t ++ [(name, sym)]

/-- Number of entries of a given kind in one scope table. -/
def kindCount (t : Table) (k : SymbolType) : Nat :=
  t.countP (fun p => p.2.symbolType == k)

/-- Go `nextIndex`: iterates the map incrementing an `int16` counter for
every symbol of the requested kind, i.e. the kind count wrapped to 16 bits. -/
def nextIndex (t : Table) (k : SymbolType) : MachineWord :=
  wrap16 (kindCount t k)

/-- Go `registerSymbol`: stamp the next free index onto the symbol and store
it under `name`. -/
def registerSymbol (t : Table) (name : String) (sym : Symbol) : Symbol × Table :=
  let sym2 : Symbol := { sym with index := nextIndex t sym.symbolType }
  (sym2, tableInsert t name sym2)

/-- The two-scope symbol table. -/
structure SymbolTable where
  classScopeTable : Table
  functionScopeTable : Table
deriving DecidableEq

/-- Go `NewSymbolTable`. -/
def NewSymbolTable : SymbolTable := ⟨[], []⟩

/-- Go `SymbolTable.Count`. -/
def SymbolTable.Count (s : SymbolTable) (k : SymbolType) (sc : Scope) : MachineWord :=
  match sc with
  | .ClassScope => nextIndex s.classScopeTable k
  | .FunctionScope => nextIndex s.functionScopeTable k

/-- Go `SymbolTable.Declare`: register in the requested scope, returning the
stored symbol (with its assigned index) and the updated table. -/
def SymbolTable.Declare (s : SymbolTable) (sym : Symbol) (name : String) (sc : Scope) :
    Symbol × SymbolTable :=
  match sc with
  | .ClassScope =>
    let r := registerSymbol s.classScopeTable name sym
    (r.1, { s with classScopeTable := r.2 })
  | .FunctionScope =>
    let r := registerSymbol s.functionScopeTable name sym
    (r.1, { s with functionScopeTable := r.2 })

/-- Go `SymbolTable.Lookup`: subroutine scope first, then class scope. -/
def SymbolTable.Lookup (s : SymbolTable) (name : String) : Option Symbol :=
  match tableLookup s.functionScopeTable name with
  | some sym => some sym
  | none => tableLookup s.classScopeTable name

/-- Go `SymbolTable.Clear`: the `FunctionScope` case empties the subroutine
map and falls through to the `ClassScope` case, which empties the class map. -/
def SymbolTable.Clear (s : SymbolTable) (sc : Scope) : SymbolTable :=
  match sc with
  | .FunctionScope => { classScopeTable := [], functionScopeTable := [] }
  | .ClassScope => { s with classScopeTable := [] }

/-! VM writer (`vm_writer.go`).  Each emitted command is one output line. -/

def ConstVMSegment : String := "constant"
def ArgumentVMSegment : String := "argument"
def LocalVMSegment : String := "local"
def StaticVMSegment : String := "static"
def ThisVMSegment : String := "this"
def ThatVMSegment : String := "that"
def PointerVMSegment : String := "pointer"
def TempVMSegment : String := "temp"

/-- Go prints call/function arity with `strconv.FormatUint(uint64(n), 10)`;
for a negative `int16` the `uint64` conversion wraps modulo `2^64`. -/
def formatUintWord (n : MachineWord) : String :=
  if 0 ≤ n then toString n else toString (18446744073709551616 + n)

def writePushCmd (segment : String) (index : MachineWord) : String :=
  "push " ++ segment ++ " " ++ toString index

def writePopCmd (segment : String) (index : MachineWord) : String :=
  "pop " ++ segment ++ " " ++ toString index

def writeCallCmd (label : String) (nargs : MachineWord) : String :=
  "call " ++ label ++ " " ++ formatUintWord nargs

def writeFunctionCmd (label : String) (nlocals : MachineWord) : String :=
  "function " ++ label ++ " " ++ formatUintWord nlocals

/-- Go `VMWriter.WriteArithmetic`: `div` and `mul` lower to OS calls, any
other operation string is emitted verbatim. -/
def writeArithmeticCmds (operation : String) : List String :=
  if operation == "div" then [writeCallCmd "Math.divide" 2]
  else if operation == "mul" then [writeCallCmd "Math.multiply" 2]
  else [operation]

/-- Go `len(s)` of the literal: its UTF-8 byte length. -/
def utf8Len (s : List Char) : Nat := (s.map Char.utf8Size).sum

/-- Code point of a character converted to `MachineWord` (Go `MachineWord(c)`
on a `rune`, an `int16` conversion). -/
def charWord (c : Char) : MachineWord := wrap16 c.toNat

/-- Go `VMWriter.WriteStringConstant`, shaped like the source: push the byte
length, allocate, stash the pointer in `temp 0`, then a fold over the
characters appending each, and finally re-push the pointer. -/
def VMWriter.WriteStringConstant (out : List String) (s : List Char) : List String :=
  let out := out ++ [writePushCmd ConstVMSegment (wrap16 (utf8Len s))]
  let out := out ++ [writeCallCmd "String.new" 1]
  let out := out ++ [writePopCmd TempVMSegment 0]
  let out := s.foldl
    (fun out c =>
      let out := out ++ [writePushCmd TempVMSegment 0]
      let out := out ++ [writePushCmd ConstVMSegment (charWord c)]
      let out := out ++ [writeCallCmd "String.appendChar" 2]
      out ++ [writePopCmd TempVMSegment 1]) out
  out ++ [writePushCmd TempVMSegment 0]

/-! The compiler (`recursive_decent_parser.go`). -/

/-- Compiler state: remaining token stream (head = current token, i.e. the
one-token lookahead of the Go tokenizer), symbol table, emitted VM command
lines, current class name, and the monotone label counter. -/
structure CompState where
  toks : List Token
  symbolTable : SymbolTable
  out : List String
  currentClassName : String
  nextLabelID : Nat
deriving DecidableEq

/-- Result of a compile step: `ok` is a normal return, `err` a Go `error`
return (the receiver's mutations up to that point persist, hence the state),
`fatal` a Go `panic` (aborts the compilation). -/
inductive Res (α : Type) where
  | ok : α → CompState → Res α
  | err : String → CompState → Res α
  | fatal : String → CompState → Res α
deriving DecidableEq

/-- Propagate `err` and `fatal`, continue on `ok` (a Go `if err != nil
\x7b return err \x7d` pattern). -/
def Res.bind (r : Res α) (f : α → CompState → Res β) : Res β :=
  match r with
  | .ok a s => f a s
  | .err m s => .err m s
  | .fatal m s => .fatal m s

/-- Continue regardless of an `err` result: models Go call sites that
discard the returned `error`. -/
def Res.ignoreErr (r : Res α) (f : CompState → Res β) : Res β :=
  match r with
  | .ok _ s => f s
  | .err _ s => f s
  | .fatal m s => .fatal m s

/-- Turn an `err` result into a panic: models Go `if err := ...; err != nil
\x7b panic(err) \x7d`. -/
def Res.orPanic (r : Res α) (f : α → CompState → Res β) : Res β :=
  match r with
  | .ok a s => f a s
  | .err m s => .fatal m s
  | .fatal m s => .fatal m s

/-- Panic message of a result, when it is one. -/
def Res.fatalMsg : Res α → Option String
  | .fatal m _ => some m
  | _ => none

/-- VM commands emitted up to the end (or abort) of a compile step. -/
def Res.emitted : Res α → List String
  | .ok _ s => s.out
  | .err _ s => s.out
  | .fatal _ s => s.out

/-- Whether a compile step returned normally. -/
def Res.isOk : Res α → Bool
  | .ok _ _ => true
  | _ => false

/-- The token stream remaining after a compile step. -/
def Res.toksLeft : Res α → List Token
  | .ok _ s => s.toks
  | .err _ s => s.toks
  | .fatal _ s => s.toks

/-- Go `nextToken` (the stored lookahead token). -/
def CompState.nextToken (s : CompState) : Token :=
  match s.toks with
  | [] => ⟨.InvalidToken, ""⟩
  | t :: _ => t

/-- Go `advance`: scan the next token, panicking when the stream is
exhausted, and return the new current token. -/
def CompState.advance (s : CompState) : Res Token :=
  match s.toks with
  | _ :: t :: rest => Res.ok t { s with toks := t :: rest }
  | _ => Res.fatal "Could not advance token scanner!" s

/-- The loop body of Go `consume`: check each expected terminal in turn
against the current token (panicking on mismatch) and advance past it. -/
def consumeFrom : List String → CompState → Res Unit
  | [], s => Res.ok () s
  | e :: rest, s =>
    if IsTerminal s.nextToken [e] then
      (s.advance).bind fun _ s2 => consumeFrom rest s2
    else Res.fatal ("Expected terminal " ++ e) s

/-- Go `consume`: with no expected terminals it just advances; otherwise it
matches and consumes each expected terminal. -/
def CompState.consume (s : CompState) (expected : List String) : Res Unit :=
  match expected with
  | [] => (s.advance).bind fun _ s2 => Res.ok () s2
  | _ => consumeFrom expected s

def CompState.emit (s : CompState) (cmd : String) : CompState :=
  { s with out := s.out ++ [cmd] }

def CompState.writePush (s : CompState) (segment : String) (i : MachineWord) : CompState :=
  s.emit (writePushCmd segment i)

def CompState.writePop (s : CompState) (segment : String) (i : MachineWord) : CompState :=
  s.emit (writePopCmd segment i)

def CompState.writeArithmetic (s : CompState) (operation : String) : CompState :=
  { s with out := s.out ++ writeArithmeticCmds operation }

def CompState.writeLabelCmd (s : CompState) (l : String) : CompState :=
  s.emit ("label " ++ l)

def CompState.writeGoto (s : CompState) (l : String) : CompState :=
  s.emit ("goto " ++ l)

def CompState.writeIfGoto (s : CompState) (l : String) : CompState :=
  s.emit ("if-goto " ++ l)

def CompState.writeCall (s : CompState) (name : String) (nargs : MachineWord) : CompState :=
  s.emit (writeCallCmd name nargs)

def CompState.writeReturnCmd (s : CompState) : CompState :=
  s.emit "return"

/-- Go `JackCompiler.writeFunction`: qualifies the name with the current
class. -/
def CompState.writeFunction (s : CompState) (functionName : String) (nargs : MachineWord) : CompState :=
  s.emit (writeFunctionCmd (s.currentClassName ++ "." ++ functionName) nargs)

def CompState.writeStringConstant (s : CompState) (constant : String) : CompState :=
  { s with out := VMWriter.WriteStringConstant s.out constant.data }

/-- Go `generateLabel`: `L<id>:` and bump the counter. -/
def CompState.generateLabel (s : CompState) : String × CompState :=
  ("L" ++ toString s.nextLabelID ++ ":", { s with nextLabelID := s.nextLabelID + 1 })

/-- Go `parseIdentifier`: returns the terminal together with an error when
the token is not an identifier (callers frequently ignore the error). -/
def parseIdentifier (t : Token) : String × Option String :=
  if t.tokenType == TokenType.Identifier then (t.terminal, none)
  else (t.terminal, some ("invalid identifier " ++ t.terminal))

/-- Go `parseType`. -/
def parseType (t : Token) : String × Option String :=
  if IsTerminal t ["int", "char", "boolean"] then (t.terminal, none)
  else parseIdentifier t

/-- Go `parseVarName`. -/
def parseVarName (t : Token) : String × Option String := parseIdentifier t

/-- Go `parseIntegerConstant`. -/
def parseIntegerConstant (t : Token) : Except String MachineWord :=
  if t.tokenType == TokenType.IntegerConstant then Except.ok t.asInt
  else Except.error ("invalid integer constant " ++ t.terminal)

/-- Go `isBinaryOp`. -/
def isBinaryOp (t : Token) : Bool :=
  IsTerminal t ["+", "-", "*", "/", "&", "|", "<", ">", "="]

/-- Go `isUnaryOp`. -/
def isUnaryOp (t : Token) : Bool := IsTerminal t ["-", "~"]

/-- Go `parseUnaryOp` (`InvalidVMOperation` is the empty string). -/
def parseUnaryOp (t : Token) : String :=
  if t.terminal == "-" then "neg"
  else if t.terminal == "~" then "not"
  else ""

/-- Go `parseBinaryOp`. -/
def parseBinaryOp (t : Token) : String :=
  if t.terminal == "+" then "add"
  else if t.terminal == "-" then "sub"
  else if t.terminal == "*" then "mul"
  else if t.terminal == "/" then "div"
  else if t.terminal == "&" then "and"
  else if t.terminal == "|" then "or"
  else if t.terminal == "<" then "lt"
  else if t.terminal == ">" then "gt"
  else if t.terminal == "=" then "eq"
  else ""

/-- Go `generateVariableAccess` as a pure function of the table: segment and
index of a variable, or the panic message raised for an unknown variable or
an unknown symbol kind. -/
def generateVariableAccess (tab : SymbolTable) (varName : String) :
    Except String (String × MachineWord) :=
  match tab.Lookup varName with
  | none => Except.error ("Unknown variable: " ++ varName)
  | some sym =>
    match sym.symbolType with
    | .StaticSymbol => Except.ok (StaticVMSegment, sym.index)
    | .ArgumentSymbol => Except.ok (ArgumentVMSegment, sym.index)
    | .VarSymbol => Except.ok (LocalVMSegment, sym.index)
    | .FieldSymbol => Except.ok (ThisVMSegment, sym.index)
    | .InvalidSymbol => Except.error "Unknown symbolType"

/-- In-state wrapper of `generateVariableAccess` (panics on failure, like
the Go method). -/
def CompState.genVarAccess (s : CompState) (varName : String) : Res (String × MachineWord) :=
  match generateVariableAccess s.symbolTable varName with
  | Except.ok v => Res.ok v s
  | Except.error m => Res.fatal m s

/-- The recursive-descent functions of `recursive_decent_parser.go`, as one
bundle so that the mutual recursion can run through a fuel bound (each call
into the bundle consumes one unit of fuel). -/
structure CompFns where
  compileClass : CompState → Res Unit
  compileClassVarDec : CompState → Res Unit
  classVarDecLoop : CompState → Res Unit
  compileVarSequence : SymbolType → CompState → Res MachineWord
  varSeqLoop : Symbol → MachineWord → CompState → Res MachineWord
  compileSubroutineDec : CompState → Res Unit
  subroutineDecLoop : CompState → Res Unit
  compileSubroutine : String → CompState → Res Unit
  varDecLoop : MachineWord → CompState → Res MachineWord
  compileParameterList : CompState → Res Unit
  compileVarDec : CompState → Res MachineWord
  compileStatements : CompState → Res Unit
  compileLet : CompState → Res Unit
  compileIf : CompState → Res Unit
  compileWhile : CompState → Res Unit
  compileDo : CompState → Res Unit
  compileReturn : CompState → Res Unit
  compileExpression : CompState → Res Unit
  exprListLoop : MachineWord → CompState → Res MachineWord
  compileSubroutineCall : String → CompState → Res Unit
  callParen : String → CompState → Res Unit
  compileTerm : CompState → Res Unit
  compileVarNameSubterm : CompState → Res Unit
  compileArrayAccess : String → CompState → Res Unit

/-- Out-of-fuel bundle: every entry aborts. -/
def fnsZero : CompFns where
  compileClass := fun s => Res.fatal "Out of fuel" s
  compileClassVarDec := fun s => Res.fatal "Out of fuel" s
  classVarDecLoop := fun s => Res.fatal "Out of fuel" s
  compileVarSequence := fun _ s => Res.fatal "Out of fuel" s
  varSeqLoop := fun _ _ s => Res.fatal "Out of fuel" s
  compileSubroutineDec := fun s => Res.fatal "Out of fuel" s
  subroutineDecLoop := fun s => Res.fatal "Out of fuel" s
  compileSubroutine := fun _ s => Res.fatal "Out of fuel" s
  varDecLoop := fun _ s => Res.fatal "Out of fuel" s
  compileParameterList := fun s => Res.fatal "Out of fuel" s
  compileVarDec := fun s => Res.fatal "Out of fuel" s
  compileStatements := fun s => Res.fatal "Out of fuel" s
  compileLet := fun s => Res.fatal "Out of fuel" s
  compileIf := fun s => Res.fatal "Out of fuel" s
  compileWhile := fun s => Res.fatal "Out of fuel" s
  compileDo := fun s => Res.fatal "Out of fuel" s
  compileReturn := fun s => Res.fatal "Out of fuel" s
  compileExpression := fun s => Res.fatal "Out of fuel" s
  exprListLoop := fun _ s => Res.fatal "Out of fuel" s
  compileSubroutineCall := fun _ s => Res.fatal "Out of fuel" s
  callParen := fun _ s => Res.fatal "Out of fuel" s
  compileTerm := fun s => Res.fatal "Out of fuel" s
  compileVarNameSubterm := fun s => Res.fatal "Out of fuel" s
  compileArrayAccess := fun _ s => Res.fatal "Out of fuel" s

/-- One fuel step: each function is a direct transcription of the Go
function of the same name; nested calls go through the previous bundle. -/
def fnsSucc (p : CompFns) : CompFns where
  compileClass := fun s =>
    (s.consume ["class"]).bind fun _ s =>
    let s := { s with symbolTable := s.symbolTable.Clear .ClassScope }
    match parseIdentifier s.nextToken with
    | (className, none) =>
      let s := { s with currentClassName := className }
      (s.advance).bind fun _ s =>
      (s.consume ["\x7b"]).bind fun _ s =>
      (p.classVarDecLoop s).bind fun _ s =>
      (p.subroutineDecLoop s).bind fun _ s =>
      s.consume ["\x7d"]
    | (_, some e) => Res.fatal e s
  compileClassVarDec := fun s =>
    if IsTerminal s.nextToken ["static"] then
      (s.consume ["static"]).bind fun _ s =>
      (p.compileVarSequence .StaticSymbol s).bind fun _ s => Res.ok () s
    else if IsTerminal s.nextToken ["field"] then
      (s.consume ["field"]).bind fun _ s =>
      (p.compileVarSequence .FieldSymbol s).bind fun _ s => Res.ok () s
    else Res.err ("Expected static or field but got " ++ s.nextToken.terminal) s
  classVarDecLoop := fun s =>
    match p.compileClassVarDec s with
    | .ok _ s2 => p.classVarDecLoop s2
    | .err _ s2 => Res.ok () s2
    | .fatal m s2 => Res.fatal m s2
  compileVarSequence := fun symbolType s =>
    let vt := (parseType s.nextToken).1
    let symbol : Symbol := { symbolType := symbolType, variableType := vt, index := 0 }
    (s.consume []).bind fun _ s =>
    p.varSeqLoop symbol 0 s
  varSeqLoop := fun symbol acc s =>
    let varName := (parseIdentifier s.nextToken).1
    (s.consume []).bind fun _ s =>
    let acc := wrap16 (acc + 1)
    let s := { s with symbolTable := (s.symbolTable.Declare symbol varName .ClassScope).2 }
    if IsTerminal s.nextToken [","] then
      (s.consume [","]).bind fun _ s => p.varSeqLoop symbol acc s
    else
      (s.consume [";"]).bind fun _ s => Res.ok acc s
  compileSubroutineDec := fun s0 =>
    let s := { s0 with symbolTable := s0.symbolTable.Clear .FunctionScope }
    if IsTerminal s.nextToken ["function", "constructor", "method"] then
      (s.consume []).bind fun _ s =>
      (s.advance).bind fun nameTok s =>
      let name := (parseIdentifier nameTok).1
      (s.consume []).bind fun _ s =>
      (s.consume ["("]).bind fun _ s =>
      (if IsTerminal s.nextToken [")"] then Res.ok () s
       else p.compileParameterList s).bind fun _ s =>
      (s.consume [")"]).bind fun _ s =>
      p.compileSubroutine name s
    else
      Res.err ("Expected method, constructor or function but got " ++ s.nextToken.terminal) s
  subroutineDecLoop := fun s =>
    match p.compileSubroutineDec s with
    | .ok _ s2 => p.subroutineDecLoop s2
    | .err _ s2 => Res.ok () s2
    | .fatal m s2 => Res.fatal m s2
  compileSubroutine := fun name s =>
    (s.consume ["\x7b"]).bind fun _ s =>
    (p.varDecLoop 0 s).bind fun nlocals s =>
    let s := s.writeFunction name nlocals
    (p.compileStatements s).bind fun _ s =>
    s.consume ["\x7d"]
  varDecLoop := fun acc s =>
    (p.compileVarDec s).bind fun varCount s =>
    if varCount == 0 then Res.ok acc s
    else p.varDecLoop (wrap16 (acc + varCount)) s
  compileParameterList := fun s =>
    let vt := (parseType s.nextToken).1
    (s.consume []).bind fun _ s =>
    let varName := (parseVarName s.nextToken).1
    (s.consume []).bind fun _ s =>
    let symbol : Symbol := { symbolType := .ArgumentSymbol, variableType := vt, index := 0 }
    let s := { s with symbolTable := (s.symbolTable.Declare symbol varName .FunctionScope).2 }
    if IsTerminal s.nextToken [","] then
      (s.consume [","]).bind fun _ s => p.compileParameterList s
    else Res.ok () s
  compileVarDec := fun s =>
    if IsTerminal s.nextToken ["var"] then
      (s.consume ["var"]).bind fun _ s => p.compileVarSequence .VarSymbol s
    else Res.ok 0 s
  compileStatements := fun s =>
    if IsTerminal s.nextToken ["\x7d"] then Res.ok () s
    else
      (if IsTerminal s.nextToken ["let"] then p.compileLet s
       else if IsTerminal s.nextToken ["if"] then p.compileIf s
       else if IsTerminal s.nextToken ["while"] then p.compileWhile s
       else if IsTerminal s.nextToken ["do"] then p.compileDo s
       else if IsTerminal s.nextToken ["return"] then p.compileReturn s
       else Res.fatal ("unexpected token " ++ s.nextToken.terminal) s).bind fun _ s =>
      p.compileStatements s
  compileLet := fun s =>
    (s.advance).bind fun nameTok s =>
    let varName := nameTok.terminal
    (s.advance).bind fun tok2 s =>
    if IsTerminal tok2 ["["] then Res.fatal "Array let not implemented" s
    else
      (s.consume ["="]).bind fun _ s =>
      (p.compileExpression s).ignoreErr fun s =>
      (s.consume [";"]).bind fun _ s =>
      (s.genVarAccess varName).bind fun si s =>
      Res.ok () (s.writePop si.1 si.2)
  compileIf := fun s =>
    (s.consume ["if", "("]).bind fun _ s =>
    let lp := s.generateLabel
    let labelPref := lp.1
    let s := lp.2
    (p.compileExpression s).orPanic fun _ s =>
    let s := s.writeArithmetic "not"
    let s := s.writeIfGoto (labelPref ++ "ELSE")
    (s.consume [")", "\x7b"]).bind fun _ s =>
    (p.compileStatements s).bind fun _ s =>
    (s.consume ["\x7d"]).bind fun _ s =>
    let s := s.writeGoto (labelPref ++ "END")
    let s := s.writeLabelCmd (labelPref ++ "ELSE")
    (if IsTerminal s.nextToken ["else"] then
      (s.consume ["else", "\x7b"]).bind fun _ s =>
      (p.compileStatements s).bind fun _ s =>
      s.consume ["\x7d"]
     else Res.ok () s).bind fun _ s =>
    Res.ok () (s.writeLabelCmd (labelPref ++ "END"))
  compileWhile := fun s =>
    (s.consume ["while", "("]).bind fun _ s =>
    let lp := s.generateLabel
    let labelPref := lp.1
    let s := lp.2
    let s := s.writeLabelCmd (labelPref ++ "BEGIN")
    (p.compileExpression s).orPanic fun _ s =>
    let s := s.writeArithmetic "not"
    let s := s.writeIfGoto (labelPref ++ "EXIT")
    (s.consume [")", "\x7b"]).bind fun _ s =>
    (p.compileStatements s).bind fun _ s =>
    (s.consume ["\x7d"]).bind fun _ s =>
    let s := s.writeGoto (labelPref ++ "BEGIN")
    Res.ok () (s.writeLabelCmd (labelPref ++ "EXIT"))
  compileDo := fun s =>
    (s.consume ["do"]).bind fun _ s =>
    (p.compileSubroutineCall "" s).bind fun _ s =>
    let s := s.writePop TempVMSegment 0
    s.consume [";"]
  compileReturn := fun s =>
    (s.consume ["return"]).bind fun _ s =>
    (match p.compileExpression s with
     | .ok _ s2 => Res.ok () s2
     | .err _ s2 => Res.ok () (s2.writePush ConstVMSegment 0)
     | .fatal m s2 => Res.fatal m s2).bind fun _ s =>
    let s := s.writeReturnCmd
    s.consume [";"]
  compileExpression := fun s =>
    (p.compileTerm s).bind fun _ s =>
    if isBinaryOp s.nextToken then
      let op := parseBinaryOp s.nextToken
      (s.advance).bind fun _ s =>
      (p.compileTerm s).ignoreErr fun s =>
      Res.ok () (s.writeArithmetic op)
    else Res.ok () s
  exprListLoop := fun acc s =>
    match p.compileExpression s with
    | .fatal m s2 => Res.fatal m s2
    | .err _ s2 => Res.ok acc s2
    | .ok _ s2 =>
      let acc := wrap16 (acc + 1)
      if IsTerminal s2.nextToken [","] then
        (s2.consume [","]).bind fun _ s3 => p.exprListLoop acc s3
      else Res.ok acc s2
  compileSubroutineCall := fun name s =>
    (if name == "" then
      match parseIdentifier s.nextToken with
      | (v, none) => (s.advance).bind fun _ s2 => Res.ok v s2
      | (_, some e) => Res.fatal e s
     else Res.ok name s).bind fun name s =>
    if IsTerminal s.nextToken ["."] then
      (s.consume ["."]).bind fun _ s =>
      match parseIdentifier s.nextToken with
      | (methodName, none) =>
        let name := name ++ "." ++ methodName
        (s.advance).bind fun _ s =>
        p.callParen name s
      | (_, some e) => Res.fatal e s
    else if IsTerminal s.nextToken ["("] then p.callParen name s
    else Res.fatal ("Expected terminal ( or ., but got " ++ s.nextToken.terminal) s
  callParen := fun name s =>
    (s.consume ["("]).bind fun _ s =>
    (p.exprListLoop 0 s).bind fun nargs s =>
    let s := s.writeCall name nargs
    s.consume [")"]
  compileTerm := fun s =>
    let token := s.nextToken
    if IsTokenType token .IntegerConstant then
      match parseIntegerConstant token with
      | Except.ok constant =>
        let s := s.writePush ConstVMSegment constant
        (s.advance).bind fun _ s => Res.ok () s
      | Except.error e => Res.fatal e s
    else if IsTokenType token .StringConstant then
      let s := s.writeStringConstant token.terminal
      Res.fatal ("unexpected token: " ++ s.nextToken.terminal) s
    else if IsTokenType token .Keyword then
      if IsTerminal token ["true"] then
        let s := s.writePush ConstVMSegment 0
        let s := s.writeArithmetic "not"
        (s.advance).bind fun _ s => Res.ok () s
      else if IsTerminal token ["false"] then
        let s := s.writePush ConstVMSegment 0
        (s.advance).bind fun _ s => Res.ok () s
      else if IsTerminal token ["null"] then
        let s := s.writePush ConstVMSegment 0
        (s.advance).bind fun _ s => Res.ok () s
      else if IsTerminal token ["this"] then Res.fatal "Not implemented!" s
      else Res.err ("unexpected keyword " ++ token.terminal) s
    else if IsTerminal token ["("] then
      (s.consume ["("]).bind fun _ s =>
      (p.compileExpression s).ignoreErr fun s =>
      s.consume [")"]
    else if isUnaryOp token then
      let op := parseUnaryOp token
      (s.advance).bind fun _ s =>
      (p.compileTerm s).ignoreErr fun s =>
      Res.ok () (s.writeArithmetic op)
    else p.compileVarNameSubterm s
  compileVarNameSubterm := fun s =>
    match parseVarName s.nextToken with
    | (_, some _) =>
      Res.err ("unable to parse variable name " ++ s.nextToken.terminal) s
    | (varName, none) =>
      (s.advance).bind fun _ s =>
      if IsTerminal s.nextToken ["["] then p.compileArrayAccess varName s
      else if IsTerminal s.nextToken ["(", "."] then p.compileSubroutineCall varName s
      else
        (s.genVarAccess varName).bind fun si s =>
        Res.ok () (s.writePush si.1 si.2)
  compileArrayAccess := fun name s =>
    (s.consume ["["]).bind fun _ s =>
    (p.compileExpression s).ignoreErr fun s =>
    (s.consume ["]"]).bind fun _ s =>
    (s.genVarAccess name).bind fun si s =>
    let s := s.writePush si.1 si.2
    let s := s.writeArithmetic "add"
    let s := s.writePop PointerVMSegment 1
    Res.ok () (s.writePop ThatVMSegment 0)

/-- Fuel-indexed bundle of the recursive-descent functions. -/
def fns : Nat → CompFns
  | 0 => fnsZero
  | n + 1 => fnsSucc (fns n)

def compileClass (fuel : Nat) (s : CompState) : Res Unit := (fns fuel).compileClass s

def compileClassVarDec (fuel : Nat) (s : CompState) : Res Unit := (fns fuel).compileClassVarDec s

def compileVarSequence (fuel : Nat) (symbolType : SymbolType) (s : CompState) : Res MachineWord :=
  (fns fuel).compileVarSequence symbolType s

def compileSubroutineDec (fuel : Nat) (s : CompState) : Res Unit :=
  (fns fuel).compileSubroutineDec s

def compileSubroutine (fuel : Nat) (name : String) (s : CompState) : Res Unit :=
  (fns fuel).compileSubroutine name s

def compileParameterList (fuel : Nat) (s : CompState) : Res Unit :=
  (fns fuel).compileParameterList s

def compileVarDec (fuel : Nat) (s : CompState) : Res MachineWord := (fns fuel).compileVarDec s

def compileStatements (fuel : Nat) (s : CompState) : Res Unit := (fns fuel).compileStatements s

def compileLet (fuel : Nat) (s : CompState) : Res Unit := (fns fuel).compileLet s

def compileIf (fuel : Nat) (s : CompState) : Res Unit := (fns fuel).compileIf s

def compileWhile (fuel : Nat) (s : CompState) : Res Unit := (fns fuel).compileWhile s

def compileDo (fuel : Nat) (s : CompState) : Res Unit := (fns fuel).compileDo s

def compileReturn (fuel : Nat) (s : CompState) : Res Unit := (fns fuel).compileReturn s

def compileExpression (fuel : Nat) (s : CompState) : Res Unit := (fns fuel).compileExpression s

def compileExpressionList (fuel : Nat) (s : CompState) : Res MachineWord :=
  (fns fuel).exprListLoop 0 s

def compileSubroutineCall (fuel : Nat) (name : String) (s : CompState) : Res Unit :=
  (fns fuel).compileSubroutineCall name s

def compileTerm (fuel : Nat) (s : CompState) : Res Unit := (fns fuel).compileTerm s

def compileVarNameSubterm (fuel : Nat) (s : CompState) : Res Unit :=
  (fns fuel).compileVarNameSubterm s

def compileArrayAccess (fuel : Nat) (name : String) (s : CompState) : Res Unit :=
  (fns fuel).compileArrayAccess name s

/-- Initial compiler state over a token stream. -/
def initState (tokens : List Token) : CompState :=
  { toks := tokens, symbolTable := NewSymbolTable, out := [], currentClassName := "",
    nextLabelID := 0 }

/-- Go `JackCompiler.Compile`: advance to the first token (panicking on an
empty stream, as `advance` does) and compile a class. -/
def Compile (fuel : Nat) (tokens : List Token) : Res Unit :=
  match tokens with
  | [] => Res.fatal "Could not advance token scanner!" (initState [])
  | _ => compileClass fuel (initState tokens)

/-- Keyword token. -/
def kw (t : String) : Token := ⟨.Keyword, t⟩

/-- Symbol token. -/
def symTok (t : String) : Token := ⟨.SymbolTok, t⟩

/-- Identifier token. -/
def ident (t : String) : Token := ⟨.Identifier, t⟩

/-- Integer-constant token. -/
def intTok (t : String) : Token := ⟨.IntegerConstant, t⟩

/-! The comment-stripping reader (`tokenizer.go`, `FilteredReader.Read`):
the block-comment termination loop. -/

/-- `bufio.Reader.ReadString(delim)`: the prefix up to and including the
first occurrence of the delimiter, plus the rest; `none` models the error
return when the delimiter is absent before end of stream. -/
def readDelim (delim : Char) : List Char → Option (List Char × List Char)
  | [] => none
  | c :: rest =>
    if c == delim then some ([c], rest)
    else
      match readDelim delim rest with
      | some (seg, r) => some (c :: seg, r)
      | none => none

/-- Outcome of the block-comment termination loop in `FilteredReader.Read`. -/
inductive SkipRes where
  | done : List Char → SkipRes
  | unclosed : SkipRes
  | indexPanic : SkipRes
  | fuelOut : SkipRes
deriving DecidableEq

/-- The loop that discards input until `*/` after a `/*` opener: read
through the next `/`; a missing delimiter or an empty segment is an
unclosed-comment error; accessing `str[len(str)-2]` on a segment of length
1 is an index-out-of-range panic; a segment whose second-to-last byte is
`*` terminates the comment. -/
def skipBlockComment (fuel : Nat) (input : List Char) : SkipRes :=
  match fuel with
  | 0 => .fuelOut
  | n + 1 =>
    match readDelim '/' input with
    | none => .unclosed
    | some (seg, rest) =>
      if seg.length == 0 then .unclosed
      else if seg.length < 2 then .indexPanic
      else if seg.getD (seg.length - 2) ' ' == '*' then .done rest
      else skipBlockComment n rest

/-! Concrete inputs used by the claims. -/

/-- Token stream of `class Foo \x7b\x7d`. -/
def c1Tokens : List Token := [kw "class", ident "Foo", symTok "\x7b", symTok "\x7d"]

/-- Token stream of the expression statement suffix `a - b - c ;` with
`a`, `b`, `c` declared as locals 0, 1, 2. -/
def c2State : CompState :=
  { toks := [ident "a", symTok "-", ident "b", symTok "-", ident "c", symTok ";"],
    symbolTable := ⟨[("a", ⟨.VarSymbol, "int", 0⟩), ("b", ⟨.VarSymbol, "int", 1⟩),
                     ("c", ⟨.VarSymbol, "int", 2⟩)], []⟩,
    out := [], currentClassName := "A", nextLabelID := 0 }

/-- Token stream of
`class A \x7b field int x; constructor A new() \x7b return this; \x7d \x7d`. -/
def c3Tokens : List Token :=
  [kw "class", ident "A", symTok "\x7b", kw "field", kw "int", ident "x", symTok ";",
   kw "constructor", ident "A", ident "new", symTok "(", symTok ")", symTok "\x7b",
   kw "return", kw "this", symTok ";", symTok "\x7d", symTok "\x7d"]

/-- State at the statement `do f.bar(1);` with `f` declared as a variable
of type `Foo` at index 0. -/
def c4State : CompState :=
  { toks := [kw "do", ident "f", symTok ".", ident "bar", symTok "(", intTok "1",
             symTok ")", symTok ";", symTok "\x7d"],
    symbolTable := ⟨[("f", ⟨.VarSymbol, "Foo", 0⟩)], []⟩,
    out := [], currentClassName := "A", nextLabelID := 0 }

/-- State at the term `a[i]` (followed by `; \x7d`) with `a` at local 0 and
`i` at local 1. -/
def c5State : CompState :=
  { toks := [ident "a", symTok "[", ident "i", symTok "]", symTok ";", symTok "\x7d"],
    symbolTable := ⟨[("a", ⟨.VarSymbol, "Array", 0⟩), ("i", ⟨.VarSymbol, "int", 1⟩)], []⟩,
    out := [], currentClassName := "A", nextLabelID := 0 }

/-- C1: compiling `class Foo \x7b\x7d` does not return normally: after
matching the closing brace the compiler's `consume` calls `advance`, which
panics because the token stream is exhausted.  No VM commands have been
emitted at that point. -/
theorem c1_empty_class_eof_panic :
    (Compile 50 c1Tokens).fatalMsg = some "Could not advance token scanner!" ∧
    (Compile 50 c1Tokens).emitted = [] := by
  constructor
  · rfl
  · rfl

/-- C2: expression compilation is not left-associative over an unbounded
chain: on `a - b - c` the compiler emits only `push a, push b, sub` (one
operator handled) and stops with `- c` still unconsumed, instead of the
five commands the claim requires. -/
theorem c2_expression_single_op :
    compileExpression 50 c2State =
      Res.ok () { c2State with
        toks := [symTok "-", ident "c", symTok ";"],
        out := ["push local 0", "push local 1", "sub"] } ∧
    ["push local 0", "push local 1", "sub"] ≠
      ["push local 0", "push local 1", "sub", "push local 2", "sub"] := by
  constructor
  · rfl
  · decide

/-- C3: compiling the constructor example emits only `function A.new 0` and
then panics with `Not implemented!` at the keyword `this`; no
`push constant 1 / call Memory.alloc 1 / pop pointer 0` prelude is ever
emitted. -/
theorem c3_constructor_no_alloc_prelude :
    (Compile 50 c3Tokens).fatalMsg = some "Not implemented!" ∧
    (Compile 50 c3Tokens).emitted = ["function A.new 0"] := by
  constructor
  · rfl
  · rfl

/-- C4: for `do f.bar(1);` with `f` a declared variable of type `Foo`, the
compiler never consults the symbol table: it emits
`push constant 1 / call f.bar 1 / pop temp 0` — no implicit receiver push,
no substitution of the declared type, and an argument count of 1 instead
of 2. -/
theorem c4_method_call_no_receiver :
    (compileDo 50 c4State).isOk = true ∧
    (compileDo 50 c4State).emitted = ["push constant 1", "call f.bar 1", "pop temp 0"] ∧
    (compileDo 50 c4State).toksLeft = [symTok "\x7d"] ∧
    ["push constant 1", "call f.bar 1", "pop temp 0"] ≠
      ["push local 0", "push constant 1", "call Foo.bar 2", "pop temp 0"] := by
  refine ⟨rfl, rfl, rfl, ?_⟩
  decide

/-- C5: an array element read `a[i]` ends with `pop that 0` — the emitted
sequence removes the value from the stack instead of pushing it with
`push that 0` as the claim states. -/
theorem c5_array_read_pops_value :
    compileVarNameSubterm 50 c5State =
      Res.ok () { c5State with
        toks := [symTok ";", symTok "\x7d"],
        out := ["push local 1", "push local 0", "add", "pop pointer 1", "pop that 0"] } ∧
    ["push local 1", "push local 0", "add", "pop pointer 1", "pop that 0"] ≠
      ["push local 1", "push local 0", "add", "pop pointer 1", "push that 0"] := by
  constructor
  · rfl
  · decide

/-- C6: `Clear(FunctionScope)` empties both the subroutine-scope and the
class-scope maps (so every per-kind index counter restarts at 0), while
`Clear(ClassScope)` empties only the class-scope map and leaves the
subroutine-scope map unchanged. -/
theorem c6_clear_scopes :
    ∀ (s : SymbolTable),
      (s.Clear .FunctionScope).functionScopeTable = [] ∧
      (s.Clear .FunctionScope).classScopeTable = [] ∧
      (∀ (k : SymbolType) (sc : Scope), (s.Clear .FunctionScope).Count k sc = 0) ∧
      (s.Clear .ClassScope).classScopeTable = [] ∧
      (s.Clear .ClassScope).functionScopeTable = s.functionScopeTable := by
  intro s
  refine ⟨rfl, rfl, ?_, rfl, rfl⟩
  intro k sc
  have h0 : wrap16 0 = 0 := by decide
  cases sc
  · exact h0
  · exact h0

/-- C9: compiling a subroutine declaration first performs
`Clear(FunctionScope)`, which by the fall-through also wipes the class
scope: the result of `compileSubroutineDec` is independent of the incoming
symbol table, after the clear `Lookup` fails for every name, and
`generateVariableAccess` on the cleared table yields the unknown-variable
panic for every name. -/
theorem c9_subroutine_clears_class_scope :
    (∀ (base : CompState) (t1 t2 : SymbolTable) (n : Nat),
        compileSubroutineDec (n + 1) { base with symbolTable := t1 } =
        compileSubroutineDec (n + 1) { base with symbolTable := t2 }) ∧
    (∀ (t : SymbolTable) (nm : String), (t.Clear .FunctionScope).Lookup nm = none) ∧
    (∀ (t : SymbolTable) (nm : String),
        generateVariableAccess (t.Clear .FunctionScope) nm =
          Except.error ("Unknown variable: " ++ nm)) :=
  ⟨fun _ _ _ _ => rfl, fun _ _ => rfl, fun _ _ => rfl⟩

/-- C10: the block-comment termination loop is not panic-free: on the
stream `/*/ */` the input remaining after the `/*` opener is `/ */`, the
first `ReadString('/')` segment is `/` of length 1 (not at least 2), and
evaluating `str[len(str)-2]` indexes position -1, a runtime panic. -/
theorem c10_block_comment_index_panic :
    skipBlockComment 10 ['/', ' ', '*', '/'] = SkipRes.indexPanic ∧
    (readDelim '/' ['/', ' ', '*', '/']).map (fun p => p.1.length) = some 1 := by
  constructor
  · rfl
  · rfl

/-! C8: `WriteStringConstant` against its specification. -/

/-- The four commands appending one character `c` of a string literal, with
the character's code point pushed as a constant. -/
def specAppendCharCmds (c : Char) : List String :=
  [writePushCmd TempVMSegment 0, writePushCmd ConstVMSegment (c.toNat : Int),
   writeCallCmd "String.appendChar" 2, writePopCmd TempVMSegment 1]

/-- Concatenation of the per-character blocks, in string order. -/
def specAppendAll : List Char → List String
  | [] => []
  | c :: rest => specAppendCharCmds c ++ specAppendAll rest

/-- The claim's stated command sequence: the first push is the NUMBER OF
CHARACTERS of the literal. -/
def claimStringConstantCmds (s : List Char) : List String :=
  [writePushCmd ConstVMSegment (s.length : Int), writeCallCmd "String.new" 1,
   writePopCmd TempVMSegment 0]
  ++ specAppendAll s ++ [writePushCmd TempVMSegment 0]

/-- The amended command sequence: the first push is the UTF-8 BYTE length
of the literal (Go `len` of the string); otherwise as the claim states. -/
def specStringConstantCmds (s : List Char) : List String :=
  [writePushCmd ConstVMSegment (utf8Len s : Int), writeCallCmd "String.new" 1,
   writePopCmd TempVMSegment 0]
  ++ specAppendAll s ++ [writePushCmd TempVMSegment 0]

theorem foldl_appendChar :
    ∀ (s : List Char) (acc : List String), (∀ c ∈ s, c.toNat ≤ 32767) →
      s.foldl (fun out c =>
        (((out ++ [writePushCmd TempVMSegment 0])
          ++ [writePushCmd ConstVMSegment (charWord c)])
          ++ [writeCallCmd "String.appendChar" 2])
          ++ [writePopCmd TempVMSegment 1]) acc
      = acc ++ specAppendAll s := by
  intro s
  induction s with
  | nil => intro acc _; simp [specAppendAll]
  | cons c rest ih =>
    intro acc h
    rw [List.foldl_cons, ih _ (fun x hx => h x (List.mem_cons_of_mem _ hx))]
    have hcw : charWord c = (c.toNat : Int) := by
      unfold charWord
      exact wrap16_eq_of_le _ (Int.ofNat_nonneg _)
        (by exact_mod_cast h c (List.mem_cons_self _ _))
    simp [specAppendAll, specAppendCharCmds, hcw, List.append_assoc]

/-- C8 counterexample: on the one-character literal `é` (UTF-8 length 2)
the emitted commands differ from the claim's sequence — the code pushes the
byte length 2, the claim demands the character count 1. -/
theorem c8_string_constant_counterexample :
    VMWriter.WriteStringConstant [] ['é'] ≠ claimStringConstantCmds ['é'] := by
  decide

/-- C8 amended: for every string literal (whose byte length and code points
fit in a 16-bit word), `WriteStringConstant` appends exactly
`push constant <utf8-byte-length>`, `call String.new 1`, `pop temp 0`, then
for each character in order `push temp 0`, `push constant <code point>`,
`call String.appendChar 2`, `pop temp 1`, and finally `push temp 0`. -/
theorem c8_string_constant_amended :
    ∀ (out : List String) (s : List Char),
      utf8Len s ≤ 32767 → (∀ c ∈ s, c.toNat ≤ 32767) →
      VMWriter.WriteStringConstant out s = out ++ specStringConstantCmds s := by
  intro out s hlen hc
  unfold VMWriter.WriteStringConstant
  simp only []
  rw [foldl_appendChar s _ hc]
  have hwl : wrap16 (utf8Len s) = (utf8Len s : Int) :=
    wrap16_eq_of_le _ (Int.ofNat_nonneg _) (by exact_mod_cast hlen)
  simp [specStringConstantCmds, hwl, List.append_assoc]

/-- C8 witness: the amended theorem applied to the literal `ab`. -/
theorem c8_string_constant_amended_witness :
    utf8Len ['a', 'b'] ≤ 32767 ∧
    VMWriter.WriteStringConstant [] ['a', 'b'] = [] ++ specStringConstantCmds ['a', 'b'] :=
  ⟨by decide, c8_string_constant_amended [] ['a', 'b'] (by decide) (by decide)⟩

/-! C7: symbol-table index contiguity. -/

/-- One `Declare` call: name, kind, declared type and target scope. -/
structure Decl where
  name : String
  symbolType : SymbolType
  variableType : String
  scope : Scope

/-- Apply one `Declare` call to a symbol table. -/
def declStep (t : SymbolTable) (d : Decl) : SymbolTable :=
  (t.Declare ⟨d.symbolType, d.variableType, 0⟩ d.name d.scope).2

/-- Run a sequence of `Declare` calls against a fresh symbol table. -/
def declareAll (ds : List Decl) : SymbolTable :=
  ds.foldl declStep NewSymbolTable

/-- Indices of the recorded symbols of one kind, in declaration order. -/
def kindIndices (t : Table) (k : SymbolType) : List MachineWord :=
  (t.filter (fun p => p.2.symbolType == k)).map (fun p => p.2.index)

/-- Names declared into one scope, in declaration order. -/
def scopeNames (ds : List Decl) (sc : Scope) : List String :=
  (ds.filter (fun d => d.scope == sc)).map (fun d => d.name)

/-- Keys of one scope table. -/
def tableKeys (t : Table) : List String := t.map (fun p => p.1)

/-- Contiguity invariant of one scope table: for every kind the recorded
indices are `0, 1, ..., n-1` in table order. -/
def TableInv (t : Table) : Prop :=
  ∀ k, kindIndices t k = (List.range (kindCount t k)).map Int.ofNat

theorem tableInsert_fresh (t : Table) (name : String) (sym : Symbol)
    (h : name ∉ tableKeys t) : tableInsert t name sym = t ++ [(name, sym)] := by
  have hany : t.any (fun p => p.1 == name) = false := by
    rw [List.any_eq_false]
    intro p hp hbeq
    rw [beq_iff_eq] at hbeq
    exact h (hbeq ▸ List.mem_map_of_mem _ hp)
  simp [tableInsert, hany]

theorem kindIndices_append_one (t : Table) (name : String) (sym : Symbol) (k : SymbolType) :
    kindIndices (t ++ [(name, sym)]) k =
      kindIndices t k ++ (if sym.symbolType = k then [sym.index] else []) := by
  unfold kindIndices
  rw [List.filter_append, List.map_append]
  by_cases hk : sym.symbolType = k
  · simp [List.filter_cons, hk]
  · simp [List.filter_cons, hk]

theorem kindCount_append_one (t : Table) (name : String) (sym : Symbol) (k : SymbolType) :
    kindCount (t ++ [(name, sym)]) k =
      kindCount t k + (if sym.symbolType = k then 1 else 0) := by
  unfold kindCount
  rw [List.countP_append]
  by_cases hk : sym.symbolType = k
  · simp [List.countP_cons, hk]
  · simp [List.countP_cons, hk]

theorem TableInv_register (t : Table) (name : String) (sym : Symbol)
    (hfresh : name ∉ tableKeys t) (hlen : t.length ≤ 32767) (hinv : TableInv t) :
    TableInv (registerSymbol t name sym).2 := by
  intro k
  have hcnt : kindCount t sym.symbolType ≤ 32767 :=
    le_trans (List.countP_le_length _) hlen
  have hidx : nextIndex t sym.symbolType = (kindCount t sym.symbolType : Int) :=
    wrap16_eq_of_le _ (Int.ofNat_nonneg _) (by exact_mod_cast hcnt)
  have h2 : (registerSymbol t name sym).2
      = tableInsert t name { sym with index := nextIndex t sym.symbolType } := rfl
  rw [h2, tableInsert_fresh t name _ hfresh]
  rw [kindIndices_append_one, kindCount_append_one]
  by_cases hk : ({ sym with index := nextIndex t sym.symbolType } : Symbol).symbolType = k
  · have hk0 : sym.symbolType = k := hk
    rw [if_pos hk, if_pos hk, hinv k]
    have hidx2 : ({ sym with index := nextIndex t sym.symbolType } : Symbol).index
        = (kindCount t k : Int) := by
      rw [← hk0]
      exact hidx
    rw [hidx2, List.range_succ]
    simp
  · rw [if_neg hk, if_neg hk, hinv k]
    simp

theorem TableInv_nil : TableInv [] := by
  intro k
  rfl

theorem declareAll_loop :
    ∀ (ds : List Decl) (tab : SymbolTable),
      TableInv tab.classScopeTable → TableInv tab.functionScopeTable →
      (tableKeys tab.classScopeTable ++ scopeNames ds .ClassScope).Nodup →
      (tableKeys tab.functionScopeTable ++ scopeNames ds .FunctionScope).Nodup →
      tab.classScopeTable.length + (scopeNames ds .ClassScope).length ≤ 32768 →
      tab.functionScopeTable.length + (scopeNames ds .FunctionScope).length ≤ 32768 →
      TableInv (ds.foldl declStep tab).classScopeTable ∧
      TableInv (ds.foldl declStep tab).functionScopeTable := by
  intro ds
  induction ds with
  | nil =>
    intro tab h1 h2 _ _ _ _
    exact ⟨h1, h2⟩
  | cons d rest ih =>
    intro tab h1 h2 hn1 hn2 hl1 hl2
    rw [List.foldl_cons]
    cases hs : d.scope with
    | ClassScope =>
      have hstep : declStep tab d =
          { tab with classScopeTable :=
              (registerSymbol tab.classScopeTable d.name ⟨d.symbolType, d.variableType, 0⟩).2 } := by
        simp [declStep, SymbolTable.Declare, hs]
      have hsn1 : scopeNames (d :: rest) .ClassScope = d.name :: scopeNames rest .ClassScope := by
        simp [scopeNames, List.filter_cons, hs]
      have hsn2 : scopeNames (d :: rest) .FunctionScope = scopeNames rest .FunctionScope := by
        simp [scopeNames, List.filter_cons, hs]
      rw [hsn1] at hn1 hl1
      rw [hsn2] at hn2 hl2
      have hfresh : d.name ∉ tableKeys tab.classScopeTable := by
        rw [List.nodup_append] at hn1
        exact fun hc => hn1.2.2 hc (List.mem_cons_self _ _)
      have hlen : tab.classScopeTable.length ≤ 32767 := by
        simp only [List.length_cons] at hl1
        omega
      have hreg : tableKeys (registerSymbol tab.classScopeTable d.name ⟨d.symbolType, d.variableType, 0⟩).2
          = tableKeys tab.classScopeTable ++ [d.name] := by
        show tableKeys (tableInsert _ _ _) = _
        rw [tableInsert_fresh _ _ _ hfresh]
        simp [tableKeys]
      have hreglen : (registerSymbol tab.classScopeTable d.name ⟨d.symbolType, d.variableType, 0⟩).2.length
          = tab.classScopeTable.length + 1 := by
        show (tableInsert _ _ _).length = _
        rw [tableInsert_fresh _ _ _ hfresh]
        simp
      refine ih (declStep tab d) ?_ ?_ ?_ ?_ ?_ ?_
      · rw [hstep]
        exact TableInv_register _ _ _ hfresh hlen h1
      · rw [hstep]
        exact h2
      · rw [hstep]
        simp only [hreg]
        rw [List.append_assoc]
        simpa using hn1
      · rw [hstep]
        exact hn2
      · rw [hstep]
        simp only [hreglen, List.length_cons] at *
        omega
      · rw [hstep]
        exact hl2
    | FunctionScope =>
      have hstep : declStep tab d =
          { tab with functionScopeTable :=
              (registerSymbol tab.functionScopeTable d.name ⟨d.symbolType, d.variableType, 0⟩).2 } := by
        simp [declStep, SymbolTable.Declare, hs]
      have hsn1 : scopeNames (d :: rest) .ClassScope = scopeNames rest .ClassScope := by
        simp [scopeNames, List.filter_cons, hs]
      have hsn2 : scopeNames (d :: rest) .FunctionScope = d.name :: scopeNames rest .FunctionScope := by
        simp [scopeNames, List.filter_cons, hs]
      rw [hsn1] at hn1 hl1
      rw [hsn2] at hn2 hl2
      have hfresh : d.name ∉ tableKeys tab.functionScopeTable := by
        rw [List.nodup_append] at hn2
        exact fun hc => hn2.2.2 hc (List.mem_cons_self _ _)
      have hlen : tab.functionScopeTable.length ≤ 32767 := by
        simp only [List.length_cons] at hl2
        omega
      have hreg : tableKeys (registerSymbol tab.functionScopeTable d.name ⟨d.symbolType, d.variableType, 0⟩).2
          = tableKeys tab.functionScopeTable ++ [d.name] := by
        show tableKeys (tableInsert _ _ _) = _
        rw [tableInsert_fresh _ _ _ hfresh]
        simp [tableKeys]
      have hreglen : (registerSymbol tab.functionScopeTable d.name ⟨d.symbolType, d.variableType, 0⟩).2.length
          = tab.functionScopeTable.length + 1 := by
        show (tableInsert _ _ _).length = _
        rw [tableInsert_fresh _ _ _ hfresh]
        simp
      refine ih (declStep tab d) ?_ ?_ ?_ ?_ ?_ ?_
      · rw [hstep]
        exact h1
      · rw [hstep]
        exact TableInv_register _ _ _ hfresh hlen h2
      · rw [hstep]
        exact hn1
      · rw [hstep]
        simp only [hreg]
        rw [List.append_assoc]
        simpa using hn2
      · rw [hstep]
        exact hl1
      · rw [hstep]
        simp only [hreglen, List.length_cons] at *
        omega

/-- C7 counterexample: two `Declare` calls for the same name `x` (kind
`Var`, subroutine scope) leave a single recorded symbol whose index is 1:
the indices are not the contiguous sequence `0, ..., n-1` the claim
demands for every sequence of `Declare` calls. -/
theorem c7_duplicate_declare_counterexample :
    kindIndices (declareAll [⟨"x", .VarSymbol, "int", .FunctionScope⟩,
        ⟨"x", .VarSymbol, "int", .FunctionScope⟩]).functionScopeTable .VarSymbol = [1] ∧
    [(1 : MachineWord)] ≠
      (List.range (kindCount (declareAll [⟨"x", .VarSymbol, "int", .FunctionScope⟩,
          ⟨"x", .VarSymbol, "int", .FunctionScope⟩]).functionScopeTable .VarSymbol)).map Int.ofNat := by
  constructor
  · rfl
  · decide

/-- C7 amended: for every sequence of at most 32768 `Declare` calls whose
names are pairwise distinct within each scope, the indices recorded for
each (scope, kind) pair form the contiguous sequence `0, 1, ..., n-1` in
declaration order (each kind counts independently within its scope). -/
theorem c7_index_contiguity_amended :
    ∀ (ds : List Decl),
      (scopeNames ds .ClassScope).Nodup →
      (scopeNames ds .FunctionScope).Nodup →
      ds.length ≤ 32768 →
      (∀ k, kindIndices (declareAll ds).classScopeTable k =
        (List.range (kindCount (declareAll ds).classScopeTable k)).map Int.ofNat) ∧
      (∀ k, kindIndices (declareAll ds).functionScopeTable k =
        (List.range (kindCount (declareAll ds).functionScopeTable k)).map Int.ofNat) := by
  intro ds hn1 hn2 hlen
  have hsub1 : (scopeNames ds .ClassScope).length ≤ ds.length := by
    calc (scopeNames ds .ClassScope).length
        = (ds.filter (fun d => d.scope == .ClassScope)).length := by
          simp [scopeNames]
      _ ≤ ds.length := List.length_filter_le _ _
  have hsub2 : (scopeNames ds .FunctionScope).length ≤ ds.length := by
    calc (scopeNames ds .FunctionScope).length
        = (ds.filter (fun d => d.scope == .FunctionScope)).length := by
          simp [scopeNames]
      _ ≤ ds.length := List.length_filter_le _ _
  have := declareAll_loop ds NewSymbolTable TableInv_nil TableInv_nil
    (by simpa [tableKeys, NewSymbolTable] using hn1)
    (by simpa [tableKeys, NewSymbolTable] using hn2)
    (by simp only [NewSymbolTable, List.length_nil, Nat.zero_add]; omega)
    (by simp only [NewSymbolTable, List.length_nil, Nat.zero_add]; omega)
  exact this

/-- C7 witness: the amended theorem applied to a concrete declaration
sequence with distinct names per scope. -/
theorem c7_index_contiguity_amended_witness :
    (scopeNames [⟨"x", .StaticSymbol, "int", .ClassScope⟩,
        ⟨"y", .FieldSymbol, "int", .ClassScope⟩,
        ⟨"z", .StaticSymbol, "int", .ClassScope⟩,
        ⟨"a", .ArgumentSymbol, "int", .FunctionScope⟩,
        ⟨"b", .VarSymbol, "int", .FunctionScope⟩] .ClassScope).Nodup ∧
    kindIndices (declareAll [⟨"x", .StaticSymbol, "int", .ClassScope⟩,
        ⟨"y", .FieldSymbol, "int", .ClassScope⟩,
        ⟨"z", .StaticSymbol, "int", .ClassScope⟩,
        ⟨"a", .ArgumentSymbol, "int", .FunctionScope⟩,
        ⟨"b", .VarSymbol, "int", .FunctionScope⟩]).classScopeTable .StaticSymbol =
      (List.range (kindCount (declareAll [⟨"x", .StaticSymbol, "int", .ClassScope⟩,
        ⟨"y", .FieldSymbol, "int", .ClassScope⟩,
        ⟨"z", .StaticSymbol, "int", .ClassScope⟩,
        ⟨"a", .ArgumentSymbol, "int", .FunctionScope⟩,
        ⟨"b", .VarSymbol, "int", .FunctionScope⟩]).classScopeTable .StaticSymbol)).map Int.ofNat :=
  ⟨by decide,
   (c7_index_contiguity_amended _ (by decide) (by decide) (by decide)).1 .StaticSymbol⟩

end JackC
